import Mathlib

set_option maxRecDepth 10000

/-!
Shallow embedding of the access-control core of the nextjs-boilerplate-BBR
repository: license-key parsing and issuance, subscription-status checks,
email-keyed trials, the access gates (`requireAccess` in
`app/api/_lib/access.ts` and `requirePro` in `app/api/_lib/paywall.ts`),
the license-status route, the report-listing rate limiter and the edge
middleware.

Modelling conventions:
* JavaScript strings are embedded as `List Char` (abbreviated `Str`), so that
  `trim`, `split("-")` and character-class tests can be stated and executed.
* Timestamps are milliseconds since the epoch as integers (`ℤ`); arithmetic
  that may produce fractional values (trial expiry with a fractional
  `TRIAL_DAYS`) is carried out in `ℚ`.  The sub-millisecond truncation that
  `new Date(ms)` would perform on a fractional argument is elided.
* The Vercel blob store is embedded as explicit state inside a `World`
  structure; the Stripe subscription listing is an oracle
  `Str → Except Unit (List String)` whose `Except.error` value models the SDK
  call throwing (network, auth, rate limit, missing secret key).
* Fallible code is embedded in `Except Unit`; a function that catches all
  exceptions (`requirePro`, the license-status route) is total.
-/

namespace BBR

/-! ## Strings as lists of characters -/

abbrev Str := List Char

/-- JavaScript whitespace for `String.prototype.trim` (the common ASCII
whitespace characters, by code point: space, tab, LF, VT, FF, CR; exotic
Unicode space characters are elided — no string handled by the claims
contains them). -/
def isJsSpace (c : Char) : Bool :=
  c.toNat == 32 || c.toNat == 9 || c.toNat == 10 || c.toNat == 13 ||
    c.toNat == 11 || c.toNat == 12

/-- `String.prototype.trim`: drop whitespace from both ends. -/
def trim (s : Str) : Str :=
  ((s.dropWhile isJsSpace).reverse.dropWhile isJsSpace).reverse

/-- `String.prototype.split(sep)` for a one-character separator.
`"".split("-") = [""]`, `"a-".split("-") = ["a",""]`, etc. -/
def splitChar (sep : Char) : Str → List Str
  | [] => [[]]
  | c :: cs =>
    if c = sep then [] :: splitChar sep cs
    else
      match splitChar sep cs with
      | [] => [[c]]
      | h :: t => (c :: h) :: t

/-- `String.prototype.startsWith(p)`: `hasPrefixCh p s` is true when `p` is an
initial segment of `s`. -/
def hasPrefixCh : Str → Str → Bool
  | [], _ => true
  | _ :: _, [] => false
  | p :: ps, s :: ss => p == s && hasPrefixCh ps ss

/-! ## License-key parsing and issuance

`customerIdFromLicense` appears three times in the source with identical
logic (`app/api/_lib/paywall.ts`, `app/api/_lib/access.ts`,
`app/api/license/status/route.ts`): split the trimmed key on `"-"` and take
the first segment that starts with `"cus_"`; the JS `hit || null` coercion
maps an empty-string hit (impossible, since a hit starts with `"cus_"`) and
`undefined` to `null`. -/

def cusMarker : Str := "cus_".toList

def customerIdFromLicense (licenseKey : Str) : Option Str :=
  match (splitChar '-' (trim licenseKey)).find? (fun p => hasPrefixCh cusMarker p) with
  | some hit => if hit.isEmpty then none else some hit
  | none => none

/-- `issueLicenseForCustomerId` from `app/api/stripe/webhook/route.ts`:
``LIC-PRO-${customerId}-${short}`` where `short` is
`crypto.randomBytes(4).toString("hex").toUpperCase()` — 8 uppercase hex
characters, supplied here as a parameter. -/
def issueLicenseForCustomerId (customerId short : Str) : Str :=
  "LIC-PRO-".toList ++ customerId ++ '-' :: short

/-- An uppercase hexadecimal character (output alphabet of
`randomBytes(4).toString("hex").toUpperCase()`): code points 48–57 (`0`–`9`)
or 65–70 (`A`–`F`). -/
def isUpperHex (c : Char) : Bool :=
  (48 ≤ c.toNat && c.toNat ≤ 57) || (65 ≤ c.toNat && c.toNat ≤ 70)

/-! ## Email normalization (`emailKey` in `access.ts`)

`String(emailRaw || "").trim().toLowerCase().replace(/[^a-z0-9._-]+/g, "_")`:
each maximal run of disallowed characters becomes a single underscore. -/

def allowedEmailChar (c : Char) : Bool :=
  ('a' ≤ c && c ≤ 'z') || ('0' ≤ c && c ≤ '9') || c == '.' || c == '_' || c == '-'

/-- Regex replace of `/[^a-z0-9._-]+/g` by `"_"`; the boolean flag records
whether we are inside a disallowed run whose single `"_"` has already been
emitted (structural recursion so the kernel can evaluate it). -/
def emailCollapse : Bool → Str → Str
  | _, [] => []
  | inRun, c :: cs =>
    if allowedEmailChar c then c :: emailCollapse false cs
    else if inRun then emailCollapse true cs
    else '_' :: emailCollapse true cs

def emailKey (emailRaw : Str) : Str :=
  emailCollapse false ((trim emailRaw).map Char.toLower)

/-! ## Trial-duration configuration

The `TRIAL_DAYS` environment variable is read by two independent functions:
`readTrialDays` in `app/api/_lib/access.ts`
(`Number(process.env.TRIAL_DAYS || "7")`, then
`Number.isFinite(n) && n > 0 ? Math.min(n, 60) : 7`) and `getTrialDays` in
`app/api/_lib/trial.ts` (`Number(raw)` of the trimmed value, then
`!Number.isFinite(n) || n <= 0 ? 7 : Math.floor(n)`).

The configured value is abstracted to the number the string denotes:
`unset` covers an absent or empty variable (falsy in `access.ts`, trimmed to
`""` hence `NaN` in `trial.ts` — both yield the default), `nonfinite` covers
strings parsing to `NaN` or `±Infinity`, and `num q` a string denoting the
finite value `q` (JS `Number()` parses the same decimal either way). -/

inductive EnvNum where
  | unset
  | nonfinite
  | num (q : ℚ)
deriving DecidableEq, Repr

/-- `readTrialDays` from `access.ts`; its value is the module constant
`TRIAL_DAYS` there. -/
def readTrialDays : EnvNum → ℚ
  | .unset => 7
  | .nonfinite => 7
  | .num q => if 0 < q then min q 60 else 7

/-- `getTrialDays` from `trial.ts` (`Math.floor`, no cap). -/
def getTrialDays : EnvNum → ℚ
  | .unset => 7
  | .nonfinite => 7
  | .num q => if 0 < q then ((⌊q⌋ : ℤ) : ℚ) else 7

/-! ## Subscription-status check

`hasActiveSubscription` in `app/api/_lib/paywall.ts` and `hasActiveSub` in
`app/api/_lib/access.ts` share this logic on the subscription list returned
by `stripe.subscriptions.list({ customer, status: "all" })`:

    const active = subs.data.find((s) =>
      ["active", "trialing", "past_due", "unpaid"].includes(s.status));
    return !!active && (active.status === "active" || active.status === "trialing");
-/

def relevantStatuses : List String := ["active", "trialing", "past_due", "unpaid"]

/-- The pure core of both subscription checks, on the list of statuses. -/
def subsFindActive (statuses : List String) : Bool :=
  match statuses.find? (fun s => relevantStatuses.contains s) with
  | some a => a == "active" || a == "trialing"
  | none => false

/-- A Stripe subscription-listing oracle: the statuses of all subscriptions of
a customer, or `Except.error ()` when the SDK call throws. -/
abbrev SubsOracle := Str → Except Unit (List String)

/-- `hasActiveSubscription(stripe, customerId)` from `paywall.ts`; the Stripe
client is abstracted to the oracle. Throws (propagates `Except.error`) when
the listing call throws. -/
def hasActiveSubscription (stripe : SubsOracle) (customerId : Str) : Except Unit Bool :=
  (stripe customerId).map subsFindActive

/-! ## The world state for `access.ts` -/

/-- Explicit state for `app/api/_lib/access.ts`: the blob store entries it
reads or writes, the Stripe oracle, the `TRIAL_DAYS` environment value and
the current time.  `trials` maps an email key to the parsed `startedAt`
millisecond timestamp of `trials/<ek>.json` (records whose stored date fails
to parse are absent, as in `readTrialByEmail`); `licByEmail` maps an email
key to the `licenseKey` field of `licenses_by_email/<ek>.json` (absent or
unparsable records are `none`, as in `findLicenseByEmail`). -/
structure World where
  trialDaysEnv : EnvNum
  trials : List (Str × ℤ)
  licByEmail : Str → Option Str
  subs : SubsOracle
  now : ℤ

/-- The module constant `TRIAL_DAYS` of `access.ts`. -/
def World.TRIAL_DAYS (w : World) : ℚ :=
  readTrialDays w.trialDaysEnv

/-- Point lookup of `trials/<ek>.json` (the source lists the exact pathname
and finds it among the returned blobs). -/
def lookupTrial (w : World) (ek : Str) : Option ℤ :=
  (w.trials.find? (fun p => p.1 = ek)).map Prod.snd

/-- `TrialInfo` from `access.ts`; `startedAt` and `daysUsed` are integral,
`expiresAt` and `daysTotal` are rational because `TRIAL_DAYS` may be. -/
structure TrialInfo where
  startedAt : ℤ
  expiresAt : ℚ
  daysUsed : ℤ
  daysTotal : ℚ
  active : Bool
deriving DecidableEq, Repr

/-- The arithmetic of `readTrialByEmail`: expiry, days used, activity. -/
def mkTrialInfo (startedAt : ℤ) (total : ℚ) (now : ℤ) : TrialInfo :=
  { startedAt := startedAt
    expiresAt := (startedAt : ℚ) + total * 86400000
    daysUsed := max 0 ((now - startedAt) / 86400000)
    daysTotal := total
    active := decide ((now : ℚ) < (startedAt : ℚ) + total * 86400000) }

/-- `readTrialByEmail` from `access.ts`. -/
def readTrialByEmail (w : World) (email : Str) : Option TrialInfo :=
  (lookupTrial w (emailKey email)).map (fun st => mkTrialInfo st w.TRIAL_DAYS w.now)

/-- `ensureTrialByEmail` from `access.ts`: return the existing trial if one
exists, otherwise `put` a new `{ startedAt: now }` record and return the
freshly computed view (`daysUsed: 0`, `active: true` are literal in the
source). Returns the updated world alongside. -/
def ensureTrialByEmail (w : World) (email : Str) : TrialInfo × World :=
  match readTrialByEmail w email with
  | some existing => (existing, w)
  | none =>
    ({ startedAt := w.now
       expiresAt := (w.now : ℚ) + w.TRIAL_DAYS * 86400000
       daysUsed := 0
       daysTotal := w.TRIAL_DAYS
       active := true },
     { w with trials := (emailKey email, w.now) :: w.trials })

/-- `findLicenseByEmail` from `access.ts`: read the by-email record, then
parse its `licenseKey`; `none` unless the key yields a customer id. -/
def findLicenseByEmail (w : World) (email : Str) : Option (Str × Str) :=
  match w.licByEmail (emailKey email) with
  | none => none
  | some lk =>
    match customerIdFromLicense lk with
    | some cid => some (lk, cid)
    | none => none

/-- `hasActiveSub` from `access.ts` (same logic as
`hasActiveSubscription`, Stripe client obtained internally). -/
def hasActiveSub (w : World) (customerId : Str) : Except Unit Bool :=
  (w.subs customerId).map subsFindActive

/-! ## The access gates -/

inductive Via where
  | license
  | trial
deriving DecidableEq, Repr

/-- The verdict shape shared by `requireAccess` and `requirePro`:
`ok: true` with `via`/`customerId`/`trial`, or `ok: false` with an HTTP
status and the `error` code of the JSON body (the human-readable `message`
and `upgradeUrl` fields, constant per error code, are elided). -/
inductive GateAnswer where
  | allow (via : Via) (customerId : Option Str) (trial : Option TrialInfo)
  | deny (status : ℤ) (error : String)
deriving DecidableEq, Repr

/-- Steps 2–3 of `requireAccess` after the license-by-email check failed:
`if (opts.allowTrial) { const trial = await readTrialByEmail(email);
if (trial?.active) return ok; }` then the common `UPGRADE_REQUIRED` deny. -/
def trialFallback (w : World) (email : Str) (allowTrial : Bool) : GateAnswer :=
  if allowTrial then
    match readTrialByEmail w email with
    | some t => if t.active then .allow .trial none (some t) else .deny 402 "UPGRADE_REQUIRED"
    | none => .deny 402 "UPGRADE_REQUIRED"
  else .deny 402 "UPGRADE_REQUIRED"

/-- `requireAccess(req, opts)` from `app/api/_lib/access.ts`.  `key` and
`email` are the raw `?key=` and `?email=` query parameters (absent = `[]`);
the source trims both.  The result is `Except Unit _` because the Stripe
calls inside (`hasActiveSub`) are not caught: a provider throw propagates to
the caller.  The function reads but never writes the blob store (no `put`
occurs in its body), hence no world is returned. -/
def requireAccess (w : World) (key email : Str) (allowTrial : Bool) :
    Except Unit GateAnswer :=
  let k := trim key
  let e := trim email
  if ¬k.isEmpty then
    match customerIdFromLicense k with
    | none => .ok (.deny 402 "LEGACY_LICENSE_FORMAT")
    | some cid =>
      match hasActiveSub w cid with
      | .error u => .error u
      | .ok true => .ok (.allow .license (some cid) none)
      | .ok false => .ok (.deny 402 "SUB_INACTIVE")
  else if ¬e.isEmpty then
    match findLicenseByEmail w e with
    | some link =>
      match hasActiveSub w link.2 with
      | .error u => .error u
      | .ok true => .ok (.allow .license (some link.2) none)
      | .ok false => .ok (trialFallback w e allowTrial)
    | none => .ok (trialFallback w e allowTrial)
  else .ok (.deny 402 "UPGRADE_REQUIRED")

/-- `readLicenseFrom(req)` from `paywall.ts`:
`(url.searchParams.get("key") || req.headers.get("x-license-key") || "").trim()`
(`qp` and `hdr` are the raw values, `[]` for absent; `""` is falsy). -/
def readLicenseFrom (qp hdr : Str) : Str :=
  trim (if qp.isEmpty then hdr else qp)

/-- The `try` block of `requirePro` (everything before the `catch`). -/
def requireProBody (w : World) (qp hdr : Str) : Except Unit GateAnswer :=
  let licenseKey := readLicenseFrom qp hdr
  if licenseKey.isEmpty then .ok (.deny 402 "UPGRADE_REQUIRED")
  else
    match customerIdFromLicense licenseKey with
    | none => .ok (.deny 402 "LEGACY_LICENSE_FORMAT")
    | some cid =>
      match hasActiveSubscription w.subs cid with
      | .error u => .error u
      | .ok true => .ok (.allow .license (some cid) none)
      | .ok false => .ok (.deny 402 "SUB_INACTIVE")

/-- `requirePro(req)` from `app/api/_lib/paywall.ts`: the whole body is in a
`try { ... } catch { return 401 PAYWALL_ERROR }`, so the gate is total — it
never throws, and any exception becomes a `401 PAYWALL_ERROR` deny. -/
def requirePro (w : World) (qp hdr : Str) : GateAnswer :=
  match requireProBody w qp hdr with
  | .ok v => v
  | .error _ => .deny 401 "PAYWALL_ERROR"

/-! ## The license-status route (`app/api/license/status/route.ts`) -/

/-- A subscription as the status route consumes it: its status string and the
optional `current_period_end` (epoch seconds). -/
structure SubRec where
  status : String
  current_period_end : Option ℤ
deriving DecidableEq, Repr

/-- Oracle for `stripe.subscriptions.list` as used by the status route. -/
abbrev SubRecOracle := Str → Except Unit (List SubRec)

/-- `getPlanStatus(stripe, customerId)` without the network call: from the
returned subscription list, `(status, plan, expiresAt-in-ms)`.  `expiresAt`
is `new Date(current_period_end * 1000)` when present. -/
def getPlanStatus (subs : List SubRec) : String × String × Option ℤ :=
  match subs.find? (fun s => relevantStatuses.contains s.status) with
  | none => ("inactive", "free", none)
  | some a =>
    ((if a.status == "active" || a.status == "trialing" then "active" else "inactive"),
     "pro",
     a.current_period_end.map (fun e => e * 1000))

def freeFeatures : List String := ["beliefs_scan", "themes_preview", "tips_only"]

def proFeatures : List String :=
  ["beliefs_scan", "beliefs_reframe", "actions_plan", "libraries_full", "exports_pdf"]

/-- The JSON payload of the status route together with the HTTP status it is
sent with (`NextResponse.json(payload)` defaults to 200 in every branch).
The constant `note`/`proThemes` decoration fields are elided. -/
structure StatusPayload where
  httpStatus : ℤ
  status : String
  plan : String
  expiresAt : Option ℤ
  features : List String
  error : Option String
deriving DecidableEq, Repr

/-- The "default safe response" `payload` initialiser of the route. -/
def defaultStatusPayload : StatusPayload :=
  { httpStatus := 200
    status := "inactive"
    plan := "free"
    expiresAt := none
    features := freeFeatures
    error := none }

/-- `GET` of `app/api/license/status/route.ts`.  The whole handler body is in
a `try { ... } catch { payload.error = "STATUS_CHECK_FAILED";
return NextResponse.json(payload) }`, so the route is total and every branch
answers HTTP 200; the Stripe call is the oracle, and its `Except.error`
models the thrown exception reaching the `catch`. -/
def statusRoute (qp hdr : Str) (stripe : SubRecOracle) : StatusPayload :=
  let key := readLicenseFrom qp hdr
  if key.isEmpty then defaultStatusPayload
  else
    match customerIdFromLicense key with
    | none => { defaultStatusPayload with error := some "LEGACY_LICENSE_FORMAT" }
    | some cid =>
      match stripe cid with
      | .error _ => { defaultStatusPayload with error := some "STATUS_CHECK_FAILED" }
      | .ok subs =>
        let plan := getPlanStatus subs
        { httpStatus := 200
          status := plan.1
          plan := plan.2.1
          expiresAt := plan.2.2
          features := if plan.1 == "active" then proFeatures else freeFeatures
          error := none }

/-! ## The report-listing rate limiter (`app/api/reports/list/route.ts`)

A per-IP token bucket: capacity `MAX_PER_MIN = 30`, refill
`MAX_PER_MIN / 60000` tokens per millisecond, fractional tokens (`ℚ`). -/

def MAX_PER_MIN : ℚ := 30

def refillPerMs : ℚ := MAX_PER_MIN / 60000

structure Bucket where
  tokens : ℚ
  lastRefill : ℤ
deriving DecidableEq, Repr

inductive RLResult where
  | ok
  | limited (retryAfter : ℤ)
deriving DecidableEq, Repr

/-- One call of `rateLimit(ip)` at time `now` for an IP whose bucket is `b?`
(`none` when the `BUCKETS` map has no entry): the result and the bucket
stored back in the map. -/
def rateLimit (b? : Option Bucket) (now : ℤ) : RLResult × Bucket :=
  let b : Bucket :=
    match b? with
    | none => { tokens := MAX_PER_MIN, lastRefill := now }
    | some b0 =>
      let elapsed : ℤ := max 0 (now - b0.lastRefill)
      { tokens := min MAX_PER_MIN (b0.tokens + (elapsed : ℚ) * refillPerMs)
        lastRefill := now }
  if 1 ≤ b.tokens then (.ok, { b with tokens := b.tokens - 1 })
  else
    let deficit := 1 - b.tokens
    let ms : ℤ := ⌈deficit / refillPerMs⌉
    (.limited (max 1 ⌈(ms : ℚ) / 1000⌉), b)

/-- A sequence of requests from one IP at the given timestamps: the list of
per-request results and the final bucket. -/
def runRequests : Option Bucket → List ℤ → List RLResult × Option Bucket
  | b?, [] => ([], b?)
  | b?, t :: ts =>
    let step := rateLimit b? t
    let rest := runRequests (some step.2) ts
    (step.1 :: rest.1, rest.2)

/-- The denial decisions of `GET` in the listing route, in source order: a
failed `requirePro` gate answers first (402/`PRO_REQUIRED`), then a failed
rate limit answers `429`/`RATE_LIMITED` with a `Retry-After` header; `none`
means the request proceeds to the listing body.  The triple is
(HTTP status, `error` code, `Retry-After` seconds). -/
def reportsListGate (proOk : Bool) (rl : RLResult) : Option (ℤ × String × Option ℤ) :=
  if ¬proOk then some (402, "PRO_REQUIRED", none)
  else
    match rl with
    | .limited r => some (429, "RATE_LIMITED", some r)
    | .ok => none

/-! ## The edge middleware (`middleware.ts`) -/

def ALLOWLIST : List Str :=
  [("/api/trial/boot").toList,
   ("/api/trial/status").toList,
   ("/api/license/status").toList,
   ("/api/stripe/webhook").toList,
   ("/api/stripe/create-checkout-session").toList,
   ("/api/stripe/create-portal-session").toList,
   ("/api/stripe/get-license-from-session").toList,
   ("/api/pricing").toList,
   ("/api/privacy").toList,
   ("/api/admin/license").toList,
   ("/api/admin/gifts/issue-stripe").toList,
   ("/api/admin/gifts/revoke-stripe").toList]

def isAllowlisted (pathname : Str) : Bool :=
  ALLOWLIST.any (fun p => hasPrefixCh p pathname)

/-- `trialRemainingDays` from `app/api/_lib/trial.ts`:
`(isActive, daysLeft, endsAt-in-ms)` from the cookie `startedAt` (already
parsed to ms; `none` when the cookie is absent) and the current time.  The
cookie-less branch returns `new Date(0)` as the end. -/
def trialRemainingDays (env : EnvNum) (startedAt? : Option ℤ) (now : ℤ) :
    Bool × ℤ × ℚ :=
  match startedAt? with
  | none => (false, 0, 0)
  | some st =>
    let endMs : ℚ := (st : ℚ) + getTrialDays env * 86400000
    let daysLeft : ℤ := max 0 ⌈(endMs - (now : ℚ)) / 86400000⌉
    (decide ((now : ℚ) < endMs), daysLeft, endMs)

/-- A request as the middleware sees it: the pathname, the raw `?key=` query
parameter and `X-License-Key` header (`[]` for absent), and the parsed
`db_trial_started_at` cookie timestamp (`none` when absent; cookie-header
parsing and ISO-date parsing are elided). -/
structure MwReq where
  pathname : Str
  keyParam : Str
  headerKey : Str
  cookieStartedAt : Option ℤ

/-- The middleware's outcome: pass through, pass through while starting the
cookie trial (first contact), or a JSON denial with HTTP status and `error`
code. -/
inductive MwResult where
  | next
  | nextStartCookie
  | deny (status : ℤ) (error : String)
deriving DecidableEq, Repr

/-- `middleware(req)` from `middleware.ts`. -/
def middleware (env : EnvNum) (now : ℤ) (r : MwReq) : MwResult :=
  if ¬hasPrefixCh ("/api/").toList r.pathname then .next
  else if isAllowlisted r.pathname then .next
  else
    match r.cookieStartedAt with
    | none => .nextStartCookie
    | some st =>
      let isActive := (trialRemainingDays env (some st) now).1
      let hasLicenseMarker := ¬(trim r.keyParam).isEmpty || ¬(trim r.headerKey).isEmpty
      if ¬isActive && ¬hasLicenseMarker then .deny 402 "TRIAL_EXPIRED"
      else .next

/-- Decidable equality for gate results, so concrete runs can be checked by
`decide`. -/
instance {ε α : Type} [DecidableEq ε] [DecidableEq α] : DecidableEq (Except ε α)
  | .ok x, .ok y =>
    match decEq x y with
    | .isTrue h => .isTrue (h ▸ rfl)
    | .isFalse h => .isFalse (fun hh => h (Except.ok.inj hh))
  | .error x, .error y =>
    match decEq x y with
    | .isTrue h => .isTrue (h ▸ rfl)
    | .isFalse h => .isFalse (fun hh => h (Except.error.inj hh))
  | .ok _, .error _ => .isFalse Except.noConfusion
  | .error _, .ok _ => .isFalse Except.noConfusion

/-! ## Helper lemmas -/

theorem dropWhile_head_eq_self {p : Char → Bool} {l : Str}
    (h : ∀ c, l.head? = some c → p c = false) : l.dropWhile p = l := by
  cases l with
  | nil => rfl
  | cons a t =>
    exact List.dropWhile_cons_of_neg (by simp [h a rfl])

theorem trim_cons_of {a : Char} {l : Str} (ha : isJsSpace a = false)
    (hl : ∀ c, l.getLast? = some c → isJsSpace c = false) :
    trim (a :: l) = a :: l := by
  have h1 : (a :: l).dropWhile isJsSpace = a :: l := by
    apply dropWhile_head_eq_self
    intro c hc
    rw [List.head?_cons] at hc
    cases hc
    exact ha
  have hcons : (a :: l) = [a] ++ l := rfl
  have h2 : (a :: l).reverse.dropWhile isJsSpace = (a :: l).reverse := by
    apply dropWhile_head_eq_self
    intro c hc
    rw [List.head?_reverse] at hc
    cases hgl : l.getLast? with
    | none =>
      rw [hcons, List.getLast?_append, hgl, Option.none_or] at hc
      have e : a = c := by
        have : ([a] : Str).getLast? = some a := rfl
        rw [this] at hc
        exact Option.some.inj hc
      rw [← e]
      exact ha
    | some b =>
      rw [hcons, List.getLast?_append, hgl, Option.or_some] at hc
      have e : b = c := Option.some.inj hc
      rw [← e]
      exact hl b hgl
  unfold trim
  rw [h1, h2, List.reverse_reverse]

theorem splitChar_not_mem {sep : Char} {xs : Str} (h : sep ∉ xs) :
    splitChar sep xs = [xs] := by
  induction xs with
  | nil => rfl
  | cons c cs ih =>
    have hc : ¬c = sep := fun e => h (e ▸ List.mem_cons_self c cs)
    rw [splitChar, if_neg hc, ih (fun m => h (List.mem_cons_of_mem _ m))]

theorem splitChar_append {sep : Char} {xs rest : Str} (h : sep ∉ xs) :
    splitChar sep (xs ++ sep :: rest) = xs :: splitChar sep rest := by
  induction xs with
  | nil =>
    rw [List.nil_append, splitChar, if_pos rfl]
  | cons c cs ih =>
    have hc : ¬c = sep := fun e => h (e ▸ List.mem_cons_self c cs)
    rw [List.cons_append, splitChar, if_neg hc,
      ih (fun m => h (List.mem_cons_of_mem _ m))]

theorem hasPrefixCh_ne_nil {p : Char} {ps s : Str}
    (h : hasPrefixCh (p :: ps) s = true) : s ≠ [] := by
  cases s with
  | nil => simp [hasPrefixCh] at h
  | cons _ _ => simp

theorem isUpperHex_not_space {c : Char} (h : isUpperHex c = true) :
    isJsSpace c = false := by
  simp only [isUpperHex, Bool.or_eq_true, Bool.and_eq_true, decide_eq_true_eq] at h
  simp only [isJsSpace, Bool.or_eq_false_iff, beq_eq_false_iff_ne, ne_eq]
  omega

theorem isUpperHex_ne_dash {c : Char} (h : isUpperHex c = true) : c ≠ '-' := by
  intro e
  subst e
  exact absurd h (by decide)

/-- The empty-hit coercion in `customerIdFromLicense` never fires (a hit
starts with `"cus_"`, hence is nonempty), so the parse is exactly `find?`. -/
theorem cusId_eq_find (key : Str) :
    customerIdFromLicense key =
      (splitChar '-' (trim key)).find? (fun p => hasPrefixCh cusMarker p) := by
  unfold customerIdFromLicense
  cases hf : (splitChar '-' (trim key)).find? (fun p => hasPrefixCh cusMarker p) with
  | none => rfl
  | some hit =>
    have hp : hasPrefixCh cusMarker hit = true := by
      simpa using List.find?_some hf
    have hne : hit ≠ [] := by
      have e : cusMarker = 'c' :: ['u', 's', '_'] := rfl
      rw [e] at hp
      exact hasPrefixCh_ne_nil hp
    simp [List.isEmpty_iff, hne]

/-! ## Claim C4 — license-key parsing -/

/-- Claim C4, counterexample: a key with two `cus_` segments is not rejected
as the claim states; `customerIdFromLicense` returns the first segment. -/
theorem customerIdFromLicense_two_segments_cex :
    customerIdFromLicense ("cus_A-cus_B").toList = some ("cus_A").toList ∧
      customerIdFromLicense ("cus_A-cus_B").toList ≠ none := by
  decide

/-- Claim C4 (amended): `customerIdFromLicense` splits the trimmed key on
`"-"` and returns the FIRST segment beginning with `"cus_"`; it returns
`null` exactly when no segment begins with `"cus_"` (with two or more such
segments it returns the first, not `null`). -/
theorem customerIdFromLicense_first_cus_segment (key : Str) :
    customerIdFromLicense key =
        (splitChar '-' (trim key)).find? (fun p => hasPrefixCh cusMarker p)
      ∧ (customerIdFromLicense key = none ↔
          ∀ p ∈ splitChar '-' (trim key), hasPrefixCh cusMarker p = false) := by
  refine ⟨cusId_eq_find key, ?_⟩
  rw [cusId_eq_find, List.find?_eq_none]
  constructor
  · intro h p hp
    simpa using h p hp
  · intro h p hp
    simp [h p hp]

/-- Claim C4, witness: the characterization evaluated at a concrete key. -/
theorem customerIdFromLicense_first_cus_segment_witness :
    customerIdFromLicense ("LIC-PRO-cus_7-AB").toList =
        (splitChar '-' (trim ("LIC-PRO-cus_7-AB").toList)).find?
          (fun p => hasPrefixCh cusMarker p)
      ∧ (customerIdFromLicense ("LIC-PRO-cus_7-AB").toList = none ↔
          ∀ p ∈ splitChar '-' (trim ("LIC-PRO-cus_7-AB").toList),
            hasPrefixCh cusMarker p = false) :=
  customerIdFromLicense_first_cus_segment ("LIC-PRO-cus_7-AB").toList

/-! ## Claim C6 — issue/resolve round trip -/

/-- Claim C6 (confirmed): for every customer id in the provider format
(begins with `"cus_"`, contains no `"-"`) and every 8-uppercase-hex-char
suffix chosen at issuance, resolving the issued key recovers exactly that
customer id. -/
theorem issueLicense_roundTrip (cid short : Str)
    (hcus : hasPrefixCh cusMarker cid = true)
    (hdash : '-' ∉ cid)
    (hlen : short.length = 8)
    (hhex : ∀ c ∈ short, isUpperHex c = true) :
    customerIdFromLicense (issueLicenseForCustomerId cid short) = some cid := by
  obtain hnil | ⟨s2, lc, rfl⟩ := short.eq_nil_or_concat
  · rw [hnil] at hlen
    simp at hlen
  rw [List.concat_eq_append] at hlen hhex ⊢
  have hlc : isUpperHex lc = true := hhex lc (by simp)
  have htrim : trim (issueLicenseForCustomerId cid (s2 ++ [lc])) =
      issueLicenseForCustomerId cid (s2 ++ [lc]) := by
    have hform : issueLicenseForCustomerId cid (s2 ++ [lc]) =
        'L' :: (("IC-PRO-").toList ++ (cid ++ ('-' :: (s2 ++ [lc])))) := rfl
    rw [hform]
    apply trim_cons_of (by decide)
    intro c hc
    have hre : ("IC-PRO-").toList ++ (cid ++ ('-' :: (s2 ++ [lc]))) =
        (("IC-PRO-").toList ++ (cid ++ ('-' :: s2))) ++ [lc] := by
      simp [List.append_assoc]
    rw [hre, List.getLast?_concat] at hc
    have e : lc = c := Option.some.inj hc
    rw [← e]
    exact isUpperHex_not_space hlc
  have hsplit : splitChar '-' (issueLicenseForCustomerId cid (s2 ++ [lc])) =
      [("LIC").toList, ("PRO").toList, cid, s2 ++ [lc]] := by
    have hform : issueLicenseForCustomerId cid (s2 ++ [lc]) =
        ("LIC").toList ++ '-' ::
          (("PRO").toList ++ '-' :: (cid ++ '-' :: (s2 ++ [lc]))) := rfl
    have hnod : '-' ∉ s2 ++ [lc] := by
      intro hm
      exact absurd rfl (isUpperHex_ne_dash (hhex '-' hm))
    rw [hform, splitChar_append (by decide), splitChar_append (by decide),
      splitChar_append hdash, splitChar_not_mem hnod]
  rw [cusId_eq_find, htrim, hsplit]
  rw [List.find?_cons_of_neg _ (by decide), List.find?_cons_of_neg _ (by decide),
    List.find?_cons_of_pos _ hcus]

/-- Claim C6, witness: the round trip at a concrete customer id and suffix. -/
theorem issueLicense_roundTrip_witness :
    customerIdFromLicense
        (issueLicenseForCustomerId ("cus_123").toList ("DEADBEEF").toList) =
      some ("cus_123").toList :=
  issueLicense_roundTrip ("cus_123").toList ("DEADBEEF").toList
    (by decide) (by decide) (by decide) (by decide)

/-! ## Claim C2 — subscription-status check -/

/-- Characterization of the shared `find?`-then-check logic: true exactly
when some subscription is `active`/`trialing` AND every subscription before
it has a status outside the relevant set (`find?` returns the FIRST relevant
subscription, so an earlier `past_due`/`unpaid` hides a later `active`). -/
theorem subsFindActive_iff (subs : List String) :
    subsFindActive subs = true ↔
      ∃ l1 s l2, subs = l1 ++ s :: l2 ∧ (s = "active" ∨ s = "trialing")
        ∧ ∀ x ∈ l1, relevantStatuses.contains x = false := by
  unfold subsFindActive
  cases hf : subs.find? (fun s => relevantStatuses.contains s) with
  | none =>
    simp only [Bool.false_eq_true, false_iff]
    rintro ⟨l1, s, l2, rfl, hnar, hl1⟩
    rw [List.find?_eq_none] at hf
    have hmem : s ∈ l1 ++ s :: l2 := by simp
    apply hf s hmem
    rcases hnar with rfl | rfl <;> decide
  | some a =>
    constructor
    · intro h
      obtain ⟨_, as1, bs1, heq, hprev⟩ := List.find?_eq_some.mp hf
      exact ⟨as1, a, bs1, heq, by simpa using h,
        fun x hx => by simpa using hprev x hx⟩
    · rintro ⟨l1, s, l2, rfl, hnar, hl1⟩
      have hs : (l1 ++ s :: l2).find? (fun s => relevantStatuses.contains s) = some s :=
        List.find?_eq_some.mpr ⟨by rcases hnar with rfl | rfl <;> decide,
          l1, l2, rfl, fun x hx => by simpa using hl1 x hx⟩
      rw [hf] at hs
      have e : a = s := Option.some.inj hs
      rw [e]
      rcases hnar with rfl | rfl <;> decide

/-- Claim C2, counterexample: a customer with subscriptions
`["past_due", "active"]` HAS a subscription with status `"active"`, yet the
check returns false — `find?` stops at the earlier `past_due` entry, so the
claimed "iff at least one is active/trialing" fails. -/
theorem hasActiveSubscription_order_cex :
    subsFindActive ["past_due", "active"] = false
      ∧ "active" ∈ (["past_due", "active"] : List String)
      ∧ hasActiveSubscription (fun _ => .ok ["past_due", "active"])
          ("cus_1").toList = .ok false := by
  refine ⟨by decide, by decide, ?_⟩
  rfl

/-- Claim C2 (amended): for every customer and subscription list returned by
the billing provider, `hasActiveSubscription` returns true iff some
subscription has status `active`/`trialing` and every subscription listed
before it has a status outside `{active, trialing, past_due, unpaid}`; a
customer whose only relevant subscription is `past_due` is therefore not
active, but an `active` subscription listed after a `past_due` one is
missed. -/
theorem hasActiveSubscription_first_relevant (stripe : SubsOracle) (cid : Str)
    (subs : List String) (hs : stripe cid = .ok subs) :
    hasActiveSubscription stripe cid = .ok true ↔
      ∃ l1 s l2, subs = l1 ++ s :: l2 ∧ (s = "active" ∨ s = "trialing")
        ∧ ∀ x ∈ l1, relevantStatuses.contains x = false := by
  unfold hasActiveSubscription
  rw [hs]
  show Except.ok (subsFindActive subs) = Except.ok true ↔ _
  rw [← subsFindActive_iff subs]
  constructor
  · intro h
    exact Except.ok.inj h
  · intro h
    rw [h]

/-- Claim C2, witness: the characterization applied at a concrete oracle;
`["canceled", "trialing"]` is judged active via the decomposition whose
leading segment `["canceled"]` contains no relevant status. -/
theorem hasActiveSubscription_first_relevant_witness :
    hasActiveSubscription (fun _ => .ok ["canceled", "trialing"])
        ("cus_1").toList = .ok true :=
  (hasActiveSubscription_first_relevant (fun _ => .ok ["canceled", "trialing"])
      ("cus_1").toList ["canceled", "trialing"] rfl).mpr
    ⟨["canceled"], "trialing", [], rfl, Or.inr rfl, by decide⟩

/-! ## Claim C5 — the two trial-duration readers -/

/-- Claim C5, counterexample: at `TRIAL_DAYS=90` the reader in `access.ts`
caps to 60 while the reader in `trial.ts` returns 90 — the two functions are
not equal. -/
theorem trialDays_disagree_cex :
    readTrialDays (.num 90) = 60 ∧ getTrialDays (.num 90) = 90
      ∧ readTrialDays (.num 90) ≠ getTrialDays (.num 90) := by
  refine ⟨?_, ?_, ?_⟩ <;> norm_num [readTrialDays, getTrialDays]

/-- Claim C5 (amended): both readers default to 7 when the variable is
missing or does not denote a positive number, and they agree on every
positive integer value up to 60; but they are not equal as functions —
`access.ts` caps at 60 without flooring, `trial.ts` floors without capping
(e.g. at 90 they give 60 and 90). -/
theorem trialDays_default_and_agree :
    (readTrialDays .unset = 7 ∧ getTrialDays .unset = 7
        ∧ readTrialDays .nonfinite = 7 ∧ getTrialDays .nonfinite = 7)
      ∧ (∀ q : ℚ, q ≤ 0 → readTrialDays (.num q) = 7 ∧ getTrialDays (.num q) = 7)
      ∧ (∀ n : ℕ, 0 < n → n ≤ 60 →
          readTrialDays (.num n) = getTrialDays (.num n)) := by
  refine ⟨⟨rfl, rfl, rfl, rfl⟩, ?_, ?_⟩
  · intro q hq
    constructor <;> simp [readTrialDays, getTrialDays, not_lt.mpr hq]
  · intro n h1 h2
    have h0 : (0 : ℚ) < n := by exact_mod_cast h1
    simp only [readTrialDays, getTrialDays, if_pos h0]
    rw [min_eq_left (by exact_mod_cast h2), Int.floor_natCast]
    norm_cast

/-- Claim C5, witness: agreement at 7, default at −3. -/
theorem trialDays_default_and_agree_witness :
    readTrialDays (.num 7) = getTrialDays (.num 7)
      ∧ readTrialDays (.num (-3)) = 7 :=
  ⟨trialDays_default_and_agree.2.2 7 (by norm_num) (by norm_num),
   (trialDays_default_and_agree.2.1 (-3) (by norm_num)).1⟩

/-! ## Claim C1 — `requireAccess` and trial creation -/

/-- Claim C1, counterexample: an email with no license record and no trial
state, with `allowTrial = true`, is DENIED with `UPGRADE_REQUIRED` —
`requireAccess` does not call `ensureTrialByEmail` and creates nothing. -/
theorem requireAccess_no_trial_cex :
    requireAccess
        { trialDaysEnv := .unset, trials := [], licByEmail := fun _ => none,
          subs := fun _ => .ok [], now := 0 }
        [] ("a@b.com").toList true
      = .ok (.deny 402 "UPGRADE_REQUIRED") := by
  rfl

/-- Claim C1 (amended): for every request carrying an email with no prior
license record and no prior trial state, `requireAccess` with
`allowTrial = true` returns a 402 `UPGRADE_REQUIRED` deny; it never calls
`ensureTrialByEmail` (its body contains no blob write, which the embedding
reflects by returning no updated world), so no `TrialState` is created.
First-contact trial creation lives in the trial-boot route instead. -/
theorem requireAccess_no_trial_denies (w : World) (key email : Str)
    (hk : trim key = [])
    (he : trim email ≠ [])
    (hlic : w.licByEmail (emailKey (trim email)) = none)
    (htr : lookupTrial w (emailKey (trim email)) = none) :
    requireAccess w key email true = .ok (.deny 402 "UPGRADE_REQUIRED") := by
  unfold requireAccess trialFallback findLicenseByEmail readTrialByEmail
  simp [hk, he, hlic, htr, List.isEmpty_iff]

/-- Claim C1, witness: the amended statement at a concrete fresh email. -/
theorem requireAccess_no_trial_denies_witness :
    requireAccess
        { trialDaysEnv := .unset, trials := [], licByEmail := fun _ => none,
          subs := fun _ => .ok [], now := 3 }
        [] ("b@c.d").toList true
      = .ok (.deny 402 "UPGRADE_REQUIRED") :=
  requireAccess_no_trial_denies _ [] ("b@c.d").toList rfl (by decide) rfl rfl

/-! ## Claim C3 — provider failure at the gates -/

/-- Claim C3, counterexample: with a throwing provider and a resolvable key,
`requireAccess` propagates the exception (`Except.error`) to its caller
instead of returning the claimed `PAYWALL_ERROR` deny. -/
theorem requireAccess_provider_throw_cex :
    requireAccess
        { trialDaysEnv := .unset, trials := [], licByEmail := fun _ => none,
          subs := fun _ => .error (), now := 0 }
        ("LIC-PRO-cus_123-DEADBEEF").toList [] true
      = .error ()
      ∧ (Except.error () : Except Unit GateAnswer) ≠ .ok (.deny 401 "PAYWALL_ERROR") := by
  exact ⟨rfl, by decide⟩

/-- Claim C3 (amended): when the subscription lookup throws on a resolvable
key, `requirePro` (whose body is wrapped in `try`/`catch`) fails closed with
a 401 `PAYWALL_ERROR` deny and does not throw; `requireAccess` (no
`try`/`catch`) does not return a verdict at all — it propagates the
exception to its caller, and in particular never allows. -/
theorem providerThrow_gates (w : World) (qp hdr email : Str) (allowTrial : Bool)
    (cid : Str)
    (hcid : customerIdFromLicense (trim qp) = some cid)
    (herr : w.subs cid = .error ()) :
    requirePro w qp hdr = .deny 401 "PAYWALL_ERROR"
      ∧ requireAccess w qp email allowTrial = .error () := by
  have hqp : qp.isEmpty = false := by
    cases hq : qp with
    | nil =>
      rw [hq] at hcid
      exact Option.noConfusion (show (none : Option Str) = some cid from hcid)
    | cons _ _ => rfl
  have hlk : (trim qp).isEmpty = false := by
    cases hq : trim qp with
    | nil =>
      rw [hq] at hcid
      exact Option.noConfusion (show (none : Option Str) = some cid from hcid)
    | cons _ _ => rfl
  constructor
  · simp [requirePro, requireProBody, readLicenseFrom, hasActiveSubscription,
      hqp, hlk, hcid, herr, Except.map]
  · simp [requireAccess, hasActiveSub, hlk, hcid, herr, Except.map]

/-- Claim C3, witness: the amended statement at a concrete key and world. -/
theorem providerThrow_gates_witness :
    requirePro
        { trialDaysEnv := .unset, trials := [], licByEmail := fun _ => none,
          subs := fun _ => .error (), now := 0 }
        ("LIC-PRO-cus_9-0AF3").toList []
      = .deny 401 "PAYWALL_ERROR"
      ∧ requireAccess
          { trialDaysEnv := .unset, trials := [], licByEmail := fun _ => none,
            subs := fun _ => .error (), now := 0 }
          ("LIC-PRO-cus_9-0AF3").toList [] false
        = .error () :=
  providerThrow_gates _ ("LIC-PRO-cus_9-0AF3").toList [] [] false
    ("cus_9").toList (by decide) rfl

/-! ## Claim C7 — idempotent trial creation -/

/-- Claim C7 (confirmed): `ensureTrialByEmail` called twice in sequence (the
second call at an arbitrary later clock `now2` on the world the first call
returned) yields the same `startedAt` both times and writes nothing the
second time; and when a trial already exists, its stored `startedAt` is
returned unchanged and the world is untouched. -/
theorem ensureTrial_idem (w : World) (email : Str) (now2 : ℤ) (t1 : TrialInfo)
    (w1 : World) (h1 : ensureTrialByEmail w email = (t1, w1)) :
    (ensureTrialByEmail { w1 with now := now2 } email).1.startedAt = t1.startedAt
      ∧ (ensureTrialByEmail { w1 with now := now2 } email).2.trials = w1.trials
      ∧ ∀ s, lookupTrial w (emailKey email) = some s →
          t1.startedAt = s ∧ w1 = w := by
  cases hl : lookupTrial w (emailKey email) with
  | some s =>
    have he : ensureTrialByEmail w email = (mkTrialInfo s w.TRIAL_DAYS w.now, w) := by
      simp [ensureTrialByEmail, readTrialByEmail, hl]
    rw [he] at h1
    injection h1 with ht hw
    subst ht hw
    have hl2 : lookupTrial { w with now := now2 } (emailKey email) = some s := hl
    have he2 : ensureTrialByEmail { w with now := now2 } email
        = (mkTrialInfo s w.TRIAL_DAYS now2, { w with now := now2 }) := by
      simp [ensureTrialByEmail, readTrialByEmail, hl2, World.TRIAL_DAYS]
    refine ⟨?_, ?_, ?_⟩
    · rw [he2]
      simp [mkTrialInfo]
    · rw [he2]
    · intro s' hs'
      have e : s = s' := Option.some.inj hs'
      subst e
      exact ⟨by simp [mkTrialInfo], rfl⟩
  | none =>
    have he : ensureTrialByEmail w email =
        ({ startedAt := w.now,
           expiresAt := (w.now : ℚ) + w.TRIAL_DAYS * 86400000,
           daysUsed := 0, daysTotal := w.TRIAL_DAYS, active := true },
         { w with trials := (emailKey email, w.now) :: w.trials }) := by
      simp [ensureTrialByEmail, readTrialByEmail, hl]
    rw [he] at h1
    injection h1 with ht hw
    subst ht hw
    have hl2 : lookupTrial
        { { w with trials := (emailKey email, w.now) :: w.trials } with
          now := now2 }
        (emailKey email) = some w.now := by
      unfold lookupTrial
      rw [List.find?_cons_of_pos _ (by simp)]
      rfl
    refine ⟨?_, ?_, ?_⟩
    · simp [ensureTrialByEmail, readTrialByEmail, hl2, mkTrialInfo]
    · simp [ensureTrialByEmail, readTrialByEmail, hl2, mkTrialInfo]
    · intro s hs
      exact Option.noConfusion hs

/-- Claim C7, witness: with a stored trial (`startedAt = 5`) the call
returns 5 and leaves the world unchanged. -/
theorem ensureTrial_idem_witness :
    (ensureTrialByEmail
        { trialDaysEnv := .unset,
          trials := [(emailKey ("a@b.com").toList, 5)],
          licByEmail := fun _ => none, subs := fun _ => .ok [], now := 99 }
        ("a@b.com").toList).1.startedAt = 5
      ∧ (ensureTrialByEmail
          { trialDaysEnv := .unset,
            trials := [(emailKey ("a@b.com").toList, 5)],
            licByEmail := fun _ => none, subs := fun _ => .ok [], now := 99 }
          ("a@b.com").toList).2
        = { trialDaysEnv := .unset,
            trials := [(emailKey ("a@b.com").toList, 5)],
            licByEmail := fun _ => none, subs := fun _ => .ok [], now := 99 } :=
  (ensureTrial_idem
      { trialDaysEnv := .unset,
        trials := [(emailKey ("a@b.com").toList, 5)],
        licByEmail := fun _ => none, subs := fun _ => .ok [], now := 99 }
      ("a@b.com").toList 0 (mkTrialInfo 5 (readTrialDays .unset) 99)
      { trialDaysEnv := .unset,
        trials := [(emailKey ("a@b.com").toList, 5)],
        licByEmail := fun _ => none, subs := fun _ => .ok [], now := 99 }
      rfl).2.2 5 (by decide)

/-! ## Claim C9 — fail-open license-status route -/

/-- Claim C9 (confirmed): when the billing-provider lookup throws on a
resolvable key, the status route answers HTTP 200 with the default
free/inactive payload carrying the `STATUS_CHECK_FAILED` error tag; the
handler is total (the embedding returns a payload in every case), so the
exception never propagates and no 5xx is produced — fail-open, unlike the
fail-closed access gate. -/
theorem statusRoute_failOpen (qp hdr : Str) (stripe : SubRecOracle) (cid : Str)
    (hcid : customerIdFromLicense (readLicenseFrom qp hdr) = some cid)
    (herr : stripe cid = .error ()) :
    statusRoute qp hdr stripe =
      { httpStatus := 200, status := "inactive", plan := "free",
        expiresAt := none, features := freeFeatures,
        error := some "STATUS_CHECK_FAILED" } := by
  have hlk : (readLicenseFrom qp hdr).isEmpty = false := by
    cases hq : readLicenseFrom qp hdr with
    | nil =>
      rw [hq] at hcid
      exact Option.noConfusion (show (none : Option Str) = some cid from hcid)
    | cons _ _ => rfl
  simp [statusRoute, hlk, hcid, herr, defaultStatusPayload]

/-- Claim C9, witness: the fail-open payload at a concrete key and a
throwing provider. -/
theorem statusRoute_failOpen_witness :
    statusRoute ("LIC-PRO-cus_123-DEADBEEF").toList [] (fun _ => .error ()) =
      { httpStatus := 200, status := "inactive", plan := "free",
        expiresAt := none, features := freeFeatures,
        error := some "STATUS_CHECK_FAILED" } :=
  statusRoute_failOpen ("LIC-PRO-cus_123-DEADBEEF").toList []
    (fun _ => .error ()) ("cus_123").toList (by decide) rfl

/-! ## Claim C10 — presence-only key check in the middleware -/

/-- Claim C10 (confirmed): for a non-allowlisted API request whose trial
cookie exists and is expired, the middleware answers the 402
`TRIAL_EXPIRED` denial exactly when both the `key` query parameter and the
`X-License-Key` header are absent or blank; any non-blank key string —
valid or not — passes the middleware without validation. -/
theorem middleware_presence_only (env : EnvNum) (now : ℤ) (r : MwReq) (st : ℤ)
    (hapi : hasPrefixCh ("/api/").toList r.pathname = true)
    (hallow : isAllowlisted r.pathname = false)
    (hcookie : r.cookieStartedAt = some st)
    (hexp : (trialRemainingDays env (some st) now).1 = false) :
    middleware env now r = .deny 402 "TRIAL_EXPIRED" ↔
      trim r.keyParam = [] ∧ trim r.headerKey = [] := by
  unfold middleware
  rw [hapi, hallow, hcookie]
  by_cases h1 : (trim r.keyParam).isEmpty <;>
    by_cases h2 : (trim r.headerKey).isEmpty <;>
      simp_all [List.isEmpty_iff, hexp]

/-- Claim C10, witness: an expired cookie on a gated path with no key at all
is denied `TRIAL_EXPIRED` (cookie started at epoch 0, clock exactly 7 days
later, default trial duration). -/
theorem middleware_presence_only_witness :
    middleware .unset 604800000
        { pathname := ("/api/reports/list").toList, keyParam := [],
          headerKey := [], cookieStartedAt := some 0 }
      = .deny 402 "TRIAL_EXPIRED" :=
  (middleware_presence_only .unset 604800000
      { pathname := ("/api/reports/list").toList, keyParam := [],
        headerKey := [], cookieStartedAt := some 0 } 0
      (by decide) (by decide) rfl
      (by norm_num [trialRemainingDays, getTrialDays])).mpr ⟨rfl, rfl⟩

/-! ## Claim C8 — the report-listing rate limiter -/

theorem rateLimit_none_eq (t : ℤ) :
    rateLimit none t = (.ok, { tokens := MAX_PER_MIN - 1, lastRefill := t }) := by
  unfold rateLimit
  rw [if_pos (by norm_num [MAX_PER_MIN])]

theorem runRequests_cons (b? : Option Bucket) (t : ℤ) (ts : List ℤ) :
    runRequests b? (t :: ts) =
      ((rateLimit b? t).1 :: (runRequests (some (rateLimit b? t).2) ts).1,
        (runRequests (some (rateLimit b? t).2) ts).2) := rfl

/-- A request at the bucket's own `lastRefill` instant refills nothing. -/
theorem rateLimit_same_instant (q : ℚ) (u : ℤ) :
    rateLimit (some { tokens := q, lastRefill := u }) u =
      (if 1 ≤ min MAX_PER_MIN q then
        (RLResult.ok, { tokens := min MAX_PER_MIN q - 1, lastRefill := u })
      else
        (RLResult.limited
            (max 1 ⌈((⌈(1 - min MAX_PER_MIN q) / refillPerMs⌉ : ℤ) : ℚ) / 1000⌉),
          { tokens := min MAX_PER_MIN q, lastRefill := u })) := by
  unfold rateLimit
  norm_num

/-- A burst of identical timestamps produces the same result sequence
whatever the common timestamp is. -/
theorem runRequests_burst_shift (n : ℕ) (q : ℚ) (t : ℤ) :
    (runRequests (some { tokens := q, lastRefill := t }) (List.replicate n t)).1 =
      (runRequests (some { tokens := q, lastRefill := 0 }) (List.replicate n 0)).1 := by
  induction n generalizing q with
  | zero => rfl
  | succ n ih =>
    rw [List.replicate_succ, List.replicate_succ]
    simp only [runRequests]
    rw [rateLimit_same_instant q t, rateLimit_same_instant q 0]
    by_cases hq : 1 ≤ min MAX_PER_MIN q
    · simp only [if_pos hq]
      rw [ih (min MAX_PER_MIN q - 1)]
    · simp only [if_neg hq]
      rw [ih (min MAX_PER_MIN q)]

unseal Rat.mul Rat.inv Rat.add Rat.sub in
/-- Claim C8, counterexample: 31 requests from one IP at 1.9-second spacing
all fall inside one 60-second window (timestamps 0 … 57000 ms), yet the 31st
request is ALLOWED — the token bucket refills 0.95 tokens between
consecutive requests, so the claimed denial of the 31st request inside any
60-second window fails. -/
theorem rateLimiter_spread31_cex :
    ((runRequests none ((List.range 31).map (fun i => 1900 * (i : ℤ)))).1.getLast?
        = some RLResult.ok)
      ∧ ((List.range 31).map (fun i => 1900 * (i : ℤ))).length = 31
      ∧ ((List.range 31).map (fun i => 1900 * (i : ℤ))).head? = some 0
      ∧ ((List.range 31).map (fun i => 1900 * (i : ℤ))).getLast? = some 57000
      ∧ (57000 : ℤ) - 0 < 60000 := by
  refine ⟨by decide, by decide, by decide, by decide, by decide⟩

unseal Rat.mul Rat.inv Rat.add Rat.sub in
/-- Claim C8 (amended): 31 requests from one IP arriving in the same
millisecond (so the bucket never refills between them) do get the 31st
denied: the rate limiter reports `limited` with `Retry-After` 2 seconds, the
route turns that into HTTP 429 with error `RATE_LIMITED` and a `Retry-After`
header, and every `limited` answer carries `Retry-After ≥ 1` second. -/
theorem rateLimiter_burst31_denied :
    (∀ t : ℤ,
        (runRequests none (List.replicate 31 t)).1.getLast?
          = some (RLResult.limited 2))
      ∧ reportsListGate true (.limited 2) = some (429, "RATE_LIMITED", some 2)
      ∧ (∀ (b? : Option Bucket) (now r : ℤ) (b2 : Bucket),
          rateLimit b? now = (.limited r, b2) → 1 ≤ r) := by
  refine ⟨?_, rfl, ?_⟩
  · intro t
    have hstep : (runRequests none (List.replicate 31 t)).1
        = RLResult.ok ::
            (runRequests (some { tokens := MAX_PER_MIN - 1, lastRefill := t })
              (List.replicate 30 t)).1 := by
      rw [show List.replicate 31 t = t :: List.replicate 30 t from rfl]
      simp only [runRequests_cons, rateLimit_none_eq]
    rw [hstep, runRequests_burst_shift 30 (MAX_PER_MIN - 1) t]
    decide
  · intro b? now r b2 h
    simp only [rateLimit] at h
    split at h
    · simp at h
    · have hfst := congrArg Prod.fst h
      simp only at hfst
      have := RLResult.limited.inj hfst
      rw [← this]
      exact le_max_left 1 _

unseal Rat.mul Rat.inv Rat.add Rat.sub in
/-- Claim C8, witness: the amended statement at timestamp 0, and the
`Retry-After ≥ 1` bound at a concrete drained bucket. -/
theorem rateLimiter_burst31_denied_witness :
    (runRequests none (List.replicate 31 (0 : ℤ))).1.getLast?
        = some (RLResult.limited 2)
      ∧ (1 : ℤ) ≤ 2 :=
  ⟨rateLimiter_burst31_denied.1 0,
   rateLimiter_burst31_denied.2.2 (some { tokens := 0, lastRefill := 0 }) 0 2
     { tokens := 0, lastRefill := 0 } (by decide)⟩

end BBR
